import Mathlib

/-!
Verification development for the CommonJS-to-ESM transform of
rollup-plugin-commonjs-alternate.

The definitions below are a shallow embedding of the transform found in
src/unnamed/part_000 (the current implementation) and, where a claim compares
the two variants, src/index.js.  AST nodes carry their source offsets, as the
estree nodes produced by the host parser do; node identity in a parsed tree is
modelled by structural equality (distinct nodes of a parse have distinct
offsets, so structural equality coincides with the reference equality used by
findNodeInAst).
-/

/-- Primitive JavaScript values as they occur in AST literals and in the
fields of an imported namespace object. -/
inductive JSValue where
  | undefined
  | null
  | bool (b : Bool)
  | num (n : Int)
  | str (s : String)
deriving DecidableEq, Repr

/-- JavaScript truthiness of a primitive value (NaN is not modelled; numbers
are integers). -/
def truthy : JSValue → Bool
  | .undefined => false
  | .null => false
  | .bool b => b
  | .num n => n != 0
  | .str s => s != ""

/-- An imported namespace object: its named fields.  Keys of a namespace are
unique, so first-match lookup is exact. -/
abbrev Namespace := List (String × JSValue)

def esModuleKey : String := "__esModule"

def defaultKey : String := "default"

/-- Property read on a namespace object: reading an absent property yields
undefined, as in JavaScript. -/
def getProp (ex : Namespace) (key : String) : JSValue :=
  match ex.find? (fun p => p.1 == key) with
  | some p => p.2
  | none => .undefined

/-- The value the interop helper hands back to the rewritten require site:
either a field value of the namespace, or the namespace object itself.
A primitive value and an object are never the same JavaScript value, and
the namespace is never its own default field, so equality of these results
models equality of the returned JavaScript values. -/
inductive ImportValue where
  | val (v : JSValue)
  | ns (ex : Namespace)
deriving DecidableEq, Repr

/-- The interop helper emitted by src/unnamed/part_000 (lines 226-236):
if (ex.__esModule) return ex; if (ex.default !== undefined) return ex.default;
return ex. -/
def interopImport (ex : Namespace) : ImportValue :=
  if truthy (getProp ex esModuleKey) then .ns ex
  else if getProp ex defaultKey ≠ .undefined then .val (getProp ex defaultKey)
  else .ns ex

/-- The interop helper emitted by src/index.js (lines 187-193):
if (ex.default) return ex.default; else return ex. -/
def interopImportIndex (ex : Namespace) : ImportValue :=
  if truthy (getProp ex defaultKey) then .val (getProp ex defaultKey)
  else .ns ex

/-- Syntax-tree nodes (the estree node kinds the transform inspects), carrying
their source offsets.  A VariableDeclaration holds its declarators as pairs of
the declared name and the optional initializer. -/
inductive Node where
  | program (body : List Node)
  | block (startPos stopPos : Nat) (body : List Node)
  | exprStmt (startPos stopPos : Nat) (expression : Node)
  | ifStmt (startPos stopPos : Nat) (test consequent : Node) (alternate : Option Node)
  | varDecl (startPos stopPos : Nat) (declarations : List (String × Option Node))
  | funcDecl (startPos stopPos : Nat) (id : String) (body : List Node)
  | classDecl (startPos stopPos : Nat) (id : String)
  | lit (startPos stopPos : Nat) (value : JSValue)
  | ident (startPos stopPos : Nat) (name : String)
  | binary (startPos stopPos : Nat) (op : String) (left right : Node)
  | call (startPos stopPos : Nat) (callee : Node) (args : List Node)
  | assign (startPos stopPos : Nat) (left right : Node)
deriving Repr

def Node.start : Node → Nat
  | .program _ => 0
  | .block s _ _ => s
  | .exprStmt s _ _ => s
  | .ifStmt s _ _ _ _ => s
  | .varDecl s _ _ => s
  | .funcDecl s _ _ _ => s
  | .classDecl s _ _ => s
  | .lit s _ _ => s
  | .ident s _ _ => s
  | .binary s _ _ _ _ => s
  | .call s _ _ _ => s
  | .assign s _ _ _ => s

def Node.stop : Node → Nat
  | .program _ => 0
  | .block _ e _ => e
  | .exprStmt _ e _ => e
  | .ifStmt _ e _ _ _ => e
  | .varDecl _ e _ => e
  | .funcDecl _ e _ _ => e
  | .classDecl _ e _ => e
  | .lit _ e _ => e
  | .ident _ e _ => e
  | .binary _ e _ _ _ => e
  | .call _ e _ _ => e
  | .assign _ e _ _ => e

mutual

def nodeBeq : Node → Node → Bool
  | .program b1, .program b2 => nodeListBeq b1 b2
  | .block s1 e1 b1, .block s2 e2 b2 => s1 == s2 && e1 == e2 && nodeListBeq b1 b2
  | .exprStmt s1 e1 x1, .exprStmt s2 e2 x2 => s1 == s2 && e1 == e2 && nodeBeq x1 x2
  | .ifStmt s1 e1 t1 c1 a1, .ifStmt s2 e2 t2 c2 a2 =>
      s1 == s2 && e1 == e2 && nodeBeq t1 t2 && nodeBeq c1 c2 && nodeOptBeq a1 a2
  | .varDecl s1 e1 d1, .varDecl s2 e2 d2 => s1 == s2 && e1 == e2 && declListBeq d1 d2
  | .funcDecl s1 e1 i1 b1, .funcDecl s2 e2 i2 b2 =>
      s1 == s2 && e1 == e2 && i1 == i2 && nodeListBeq b1 b2
  | .classDecl s1 e1 i1, .classDecl s2 e2 i2 => s1 == s2 && e1 == e2 && i1 == i2
  | .lit s1 e1 v1, .lit s2 e2 v2 => s1 == s2 && e1 == e2 && v1 == v2
  | .ident s1 e1 n1, .ident s2 e2 n2 => s1 == s2 && e1 == e2 && n1 == n2
  | .binary s1 e1 o1 l1 r1, .binary s2 e2 o2 l2 r2 =>
      s1 == s2 && e1 == e2 && o1 == o2 && nodeBeq l1 l2 && nodeBeq r1 r2
  | .call s1 e1 c1 a1, .call s2 e2 c2 a2 =>
      s1 == s2 && e1 == e2 && nodeBeq c1 c2 && nodeListBeq a1 a2
  | .assign s1 e1 l1 r1, .assign s2 e2 l2 r2 =>
      s1 == s2 && e1 == e2 && nodeBeq l1 l2 && nodeBeq r1 r2
  | _, _ => false
termination_by structural x _y => x

def nodeListBeq : List Node → List Node → Bool
  | [], [] => true
  | x :: xs, y :: ys => nodeBeq x y && nodeListBeq xs ys
  | _, _ => false
termination_by structural x _y => x

def nodeOptBeq : Option Node → Option Node → Bool
  | none, none => true
  | some x, some y => nodeBeq x y
  | _, _ => false
termination_by structural x _y => x

def declListBeq : List (String × Option Node) → List (String × Option Node) → Bool
  | [], [] => true
  | (n1, i1) :: xs, (n2, i2) :: ys => n1 == n2 && nodeOptBeq i1 i2 && declListBeq xs ys
  | _, _ => false
termination_by structural x _y => x

end

instance : BEq Node := ⟨nodeBeq⟩

mutual

/-- Models findNodeInAst (src/unnamed/part_000, lines 28-40): walk the subtree
rooted at the given node and report whether the target node occurs in it. -/
def findNodeInAst (root target : Node) : Bool :=
  nodeBeq root target ||
  (match root with
   | .program body => findNodeInList body target
   | .block _ _ body => findNodeInList body target
   | .exprStmt _ _ e => findNodeInAst e target
   | .ifStmt _ _ t c a =>
       findNodeInAst t target || findNodeInAst c target || findNodeInOpt a target
   | .varDecl _ _ decls => findNodeInDecls decls target
   | .funcDecl _ _ _ body => findNodeInList body target
   | .classDecl _ _ _ => false
   | .lit _ _ _ => false
   | .ident _ _ _ => false
   | .binary _ _ _ l r => findNodeInAst l target || findNodeInAst r target
   | .call _ _ callee args => findNodeInAst callee target || findNodeInList args target
   | .assign _ _ l r => findNodeInAst l target || findNodeInAst r target)
termination_by structural root

def findNodeInList (l : List Node) (target : Node) : Bool :=
  match l with
  | [] => false
  | x :: xs => findNodeInAst x target || findNodeInList xs target
termination_by structural l

def findNodeInOpt (o : Option Node) (target : Node) : Bool :=
  match o with
  | none => false
  | some x => findNodeInAst x target
termination_by structural o

def findNodeInDecls (l : List (String × Option Node)) (target : Node) : Bool :=
  match l with
  | [] => false
  | (_, init) :: xs => findNodeInOpt init target || findNodeInDecls xs target
termination_by structural l

end

/-- A call site recorded by the walk: the ancestor stack at the moment the
CallExpression is entered (outermost ancestor first, immediate parent last,
exactly as the `ancestors` array of the walk at lines 83-212) together with
the CallExpression node itself. -/
abbrev Site := List Node × Node

mutual

/-- The walk of lines 84-214, restricted to what the require rewriter
consumes: every CallExpression of the unit is collected in visit order,
paired with the ancestor stack in force when it is entered (each node is
pushed at the end of its enter callback, so children see their parent at the
stack's tail). -/
def collectCallSites (ancestors : List Node) (node : Node) : List Site :=
  (match node with
   | .call _ _ _ _ => [(ancestors, node)]
   | _ => []) ++
  (match node with
   | .program body => collectCallSitesList (ancestors ++ [node]) body
   | .block _ _ body => collectCallSitesList (ancestors ++ [node]) body
   | .exprStmt _ _ e => collectCallSites (ancestors ++ [node]) e
   | .ifStmt _ _ t c a =>
       collectCallSites (ancestors ++ [node]) t ++
       collectCallSites (ancestors ++ [node]) c ++
       collectCallSitesOpt (ancestors ++ [node]) a
   | .varDecl _ _ decls => collectCallSitesDecls (ancestors ++ [node]) decls
   | .funcDecl _ _ _ body => collectCallSitesList (ancestors ++ [node]) body
   | .classDecl _ _ _ => []
   | .lit _ _ _ => []
   | .ident _ _ _ => []
   | .binary _ _ _ l r =>
       collectCallSites (ancestors ++ [node]) l ++ collectCallSites (ancestors ++ [node]) r
   | .call _ _ callee args =>
       collectCallSites (ancestors ++ [node]) callee ++
       collectCallSitesList (ancestors ++ [node]) args
   | .assign _ _ l r =>
       collectCallSites (ancestors ++ [node]) l ++ collectCallSites (ancestors ++ [node]) r)
termination_by structural node

def collectCallSitesList (ancestors : List Node) (l : List Node) : List Site :=
  match l with
  | [] => []
  | x :: xs => collectCallSites ancestors x ++ collectCallSitesList ancestors xs
termination_by structural l

def collectCallSitesOpt (ancestors : List Node) (o : Option Node) : List Site :=
  match o with
  | none => []
  | some x => collectCallSites ancestors x
termination_by structural o

def collectCallSitesDecls (ancestors : List Node) (l : List (String × Option Node)) : List Site :=
  match l with
  | [] => []
  | (_, init) :: xs =>
      collectCallSitesOpt ancestors init ++ collectCallSitesDecls ancestors xs
termination_by structural l

end

def isBinaryExpr : Node → Bool
  | .binary _ _ _ _ _ => true
  | _ => false

def isIfStmt : Node → Bool
  | .ifStmt _ _ _ _ _ => true
  | _ => false

/-- The guard of line 115: the ancestor is an IfStatement whose test is a
BinaryExpression. -/
def isIfWithBinaryTest : Node → Bool
  | .ifStmt _ _ test _ _ => isBinaryExpr test
  | _ => false

/-- Evaluation of a binary comparison on primitive values, as the JavaScript
engine executing the regenerated if-statement would perform it.  Only
same-type comparisons of the operators the transform is ever fed are
modelled; any other combination is left undefined (none). -/
def evalBinaryOp (op : String) (l r : JSValue) : Option JSValue :=
  if op == "==" || op == "===" then
    match l, r with
    | .num a, .num b => some (.bool (a == b))
    | .str a, .str b => some (.bool (a == b))
    | .bool a, .bool b => some (.bool (a == b))
    | _, _ => none
  else if op == "!=" || op == "!==" then
    match l, r with
    | .num a, .num b => some (.bool (a != b))
    | .str a, .str b => some (.bool (a != b))
    | .bool a, .bool b => some (.bool (a != b))
    | _, _ => none
  else if op == "<" then
    match l, r with
    | .num a, .num b => some (.bool (decide (a < b)))
    | _, _ => none
  else if op == "<=" then
    match l, r with
    | .num a, .num b => some (.bool (decide (a ≤ b)))
    | _, _ => none
  else if op == ">" then
    match l, r with
    | .num a, .num b => some (.bool (decide (b < a)))
    | _, _ => none
  else if op == ">=" then
    match l, r with
    | .num a, .num b => some (.bool (decide (b ≤ a)))
    | _, _ => none
  else none

/-- Evaluation of the test expression of the regenerated if-statement.  The
eval of lines 127-133 hands the regenerated source to the JavaScript engine;
this model gives a result exactly for expressions built from literals and
binary comparisons of them.  A free identifier or a call in the test makes
the real eval resolve names and run arbitrary program logic, which is outside
this restricted semantics: the model returns none there. -/
def evalTest : Node → Option JSValue
  | .lit _ _ v => some v
  | .binary _ _ op l r =>
      match evalTest l, evalTest r with
      | some lv, some rv => evalBinaryOp op lv rv
      | _, _ => none
  | _ => none

/-- The outcome of executing the regenerated if-statement of lines 127-133:
branch = 0 when the test is truthy (the consequent marker assignment ran),
branch = 1 otherwise.  none models the eval throwing or running code the
restricted semantics cannot account for. -/
def runBranchEval (test : Node) : Option Nat :=
  (evalTest test).map (fun v => if truthy v then 0 else 1)

/-- The marker statement substituted for a branch: this.parse('branch = 0')
and this.parse('branch = 1') at lines 124-125 each produce a Program holding
a single expression statement assigning a literal to the marker variable. -/
def markerAssign (branch : Int) : Node :=
  .program [.exprStmt 0 10 (.assign 0 10 (.ident 0 6 "branch") (.lit 9 10 (.num branch)))]

/-- The node whose regenerated source is handed to eval (lines 121-133): the
if-statement with its consequent and alternate temporarily swapped for the
marker assignments, and its original test kept verbatim. -/
def branchEvalFragment (parent : Node) : Node :=
  match parent with
  | .ifStmt s e test _ _ => .ifStmt s e test (markerAssign 0) (some (markerAssign 1))
  | n => n

mutual

/-- Whether any CallExpression occurs in the subtree: the fragment handed to
eval executes arbitrary program logic exactly when it contains a call. -/
def containsCall : Node → Bool
  | .program body => containsCallList body
  | .block _ _ body => containsCallList body
  | .exprStmt _ _ e => containsCall e
  | .ifStmt _ _ t c a => containsCall t || containsCall c || containsCallOpt a
  | .varDecl _ _ decls => containsCallDecls decls
  | .funcDecl _ _ _ body => containsCallList body
  | .classDecl _ _ _ => false
  | .lit _ _ _ => false
  | .ident _ _ _ => false
  | .binary _ _ _ l r => containsCall l || containsCall r
  | .call _ _ _ _ => true
  | .assign _ _ l r => containsCall l || containsCall r
termination_by structural n => n

def containsCallList : List Node → Bool
  | [] => false
  | x :: xs => containsCall x || containsCallList xs
termination_by structural l => l

def containsCallOpt : Option Node → Bool
  | none => false
  | some x => containsCall x
termination_by structural o => o

def containsCallDecls : List (String × Option Node) → Bool
  | [] => false
  | (_, init) :: xs => containsCallOpt init || containsCallDecls xs
termination_by structural l => l

end

/-- A test expression built only of literals and binary comparisons of them:
the restricted grammar under which branch evaluation cannot touch anything
but the marker variable. -/
def pureComparison : Node → Bool
  | .lit _ _ _ => true
  | .binary _ _ _ l r => pureComparison l && pureComparison r
  | _ => false

/-- A test that is a single binary comparison of two numeric literals under a
comparison operator — the shape (1 == 2 and friends) the conditional-require
feature is exercised with. -/
def simpleNumComparison : Node → Bool
  | .binary _ _ op (.lit _ _ (.num _)) (.lit _ _ (.num _)) =>
      op == "==" || op == "!=" || op == "===" || op == "!==" ||
      op == "<" || op == "<=" || op == ">" || op == ">="
  | _ => false

/-- Lines 138-146: once the fired branch is known, branchToCheck is the
consequent for branch 0 and the (possibly absent) alternate for branch 1;
the require call is included exactly when findNodeInAst finds it there
(walking an absent alternate finds nothing). -/
def branchContainsNode (consequent : Node) (alternate : Option Node) (branch : Nat)
    (node : Node) : Bool :=
  let branchToCheck := if branch == 0 then some consequent else alternate
  match branchToCheck with
  | some b => findNodeInAst b node
  | none => false

/-- The body of the some-callback of lines 107-150 for a qualifying ancestor:
evaluate the if-statement with marker branches, then include the require call
iff it lies in the branch that fired.  none models the eval throwing (a test
the engine cannot resolve), which aborts the whole transform. -/
def decideByConditional (parent node : Node) : Option Bool :=
  match parent with
  | .ifStmt _ _ test consequent alternate =>
      (match runBranchEval test with
       | some branch => some (branchContainsNode consequent alternate branch node)
       | none => none)
  | _ => none

/-- The inclusion decision of lines 105-150: shouldInclude starts true;
ancestors.some scans the ancestor stack from its first element — the
OUTERMOST ancestor — and stops at the first IfStatement with a
BinaryExpression test, whose branch evaluation then alone decides
inclusion. -/
def shouldIncludeRequire (ancestors : List Node) (node : Node) : Option Bool :=
  match ancestors.find? isIfWithBinaryTest with
  | none => some true
  | some parent => decideByConditional parent node

/-- Modelled from the spec: the inclusion policy as the spec words it — the
NEAREST (innermost) enclosing qualifying conditional is consulted.  The
ancestor stack is outermost-first, so the nearest qualifying ancestor is the
first qualifying element of the reversed stack.  Kept for comparison with
shouldIncludeRequire, which is the code's behaviour. -/
def shouldIncludeRequireNearest (ancestors : List Node) (node : Node) : Option Bool :=
  match ancestors.reverse.find? isIfWithBinaryTest with
  | none => some true
  | some parent => decideByConditional parent node

/-- Line 98: node.callee.name === 'require'.  Only an Identifier callee has a
name. -/
def calleeIsRequire : Node → Bool
  | .call _ _ (.ident _ _ nm) _ => nm == "require"
  | _ => false

/-- Line 99: node.arguments.length === 1 && node.arguments[0].type ===
'Literal'.  Any literal passes — the check is on the node kind, not on the
literal being a string. -/
def requireArgsMatch : Node → Bool
  | .call _ _ _ args =>
      args.length == 1 &&
      (match args.head? with
       | some (.lit _ _ _) => true
       | _ => false)
  | _ => false

def requireGuard (node : Node) : Bool :=
  calleeIsRequire node && requireArgsMatch node

/-- Line 153: the importee is node.arguments[0].value. -/
def requireSpecifier : Node → Option JSValue
  | .call _ _ _ ((.lit _ _ v) :: _) => some v
  | _ => none

/-- Modelled from the spec: the trigger as the spec words it — a call whose
callee is the bare identifier require with exactly one argument that is a
STRING literal.  Kept for comparison with requireGuard, the code's check. -/
def specRequireTrigger : Node → Bool
  | .call _ _ (.ident _ _ nm) [.lit _ _ (.str _)] => nm == "require"
  | _ => false

/-- One queued rewrite of an included require call (lines 152-157): the alias
counter value used for the generated name __require__import__N, the source
range of the call that is overwritten with the interop-wrapped alias, and the
literal module specifier of the prepended namespace import. -/
structure RequireEdit where
  aliasIndex : Nat
  startPos : Nat
  stopPos : Nat
  specifier : JSValue
deriving DecidableEq, Repr

/-- Line 155: the text overwriting the call's source range. -/
def overwriteText (aliasIndex : Nat) : String :=
  "__interopImport(__require__import__" ++ toString aliasIndex ++ ")"

/-- The require rewriter applied to the walk's call sites in visit order
(lines 89-161): for each CallExpression, the callee/argument guard, then the
inclusion decision, and on inclusion one RequireEdit with the next value of
the monotonically increasing importIndex.  A skipped site consumes no alias
index and emits nothing. -/
def transformRequires : List Site → Nat → List RequireEdit
  | [], _ => []
  | (ancestors, node) :: rest, importIndex =>
    if requireGuard node then
      match shouldIncludeRequire ancestors node, requireSpecifier node with
      | some true, some importee =>
          ⟨importIndex, node.start, node.stop, importee⟩ ::
            transformRequires rest (importIndex + 1)
      | _, _ => transformRequires rest importIndex
    else transformRequires rest importIndex

/-- Models findTopLevelDeclaration (src/unnamed/part_000, lines 6-26): scan
the unit's top-level statements for a variable declarator, function
declaration or class declaration binding the given name. -/
def findTopLevelDeclaration (ast : Node) (name : String) : Bool :=
  match ast with
  | .program body =>
      body.any fun node =>
        match node with
        | .varDecl _ _ declarations => declarations.any (fun d => d.1 == name)
        | .funcDecl _ _ id _ => id == name
        | .classDecl _ _ id => id == name
        | _ => false
  | _ => false

/-- Line 251: exported.filter((e, i, a) => e !== 'default' && a.indexOf(e) === i)
— drop the name default and keep only the first occurrence of each name.
The helper walks the list with its running index against the full original
list. -/
def filterExportedFrom (a : List String) : List String → Nat → List String
  | [], _ => []
  | e :: rest, i =>
      (if e ≠ defaultKey ∧ a.indexOf e = i then [e] else []) ++
        filterExportedFrom a rest (i + 1)

def filterExported (exported : List String) : List String :=
  filterExportedFrom exported exported 0

/-- One chunk of generated text queued against the unit: the prepends of the
require rewriter, the interop emitter and the export-object declaration, and
the appended footer pieces. -/
inductive Chunk where
  | importDecl (aliasIndex : Nat) (specifier : JSValue)
  | interopHelper
  | exportsDecl
  | defaultExport (ofDefaultProperty : Bool)
  | reexport (names : List String)
  | synthExport (names : List String)
  | esModuleMarker
deriving DecidableEq, Repr

def jsToString : JSValue → String
  | .undefined => "undefined"
  | .null => "null"
  | .bool b => if b then "true" else "false"
  | .num n => toString n
  | .str s => s

/-- The source text each chunk renders to (the template strings of lines
49-62, 155-156, 225-237 and 247-253). -/
def chunkText : Chunk → String
  | .importDecl aliasIndex specifier =>
      "import * as __require__import__" ++ toString aliasIndex ++ " from \x27" ++
        jsToString specifier ++ "\x27;"
  | .interopHelper =>
      "function __interopImport(ex) \x7b if (ex.__esModule) \x7b return ex; \x7d " ++
        "if (ex.default !== undefined) \x7b return ex.default; \x7d return ex; \x7d"
  | .exportsDecl => "var __exports = \x7b\x7d;"
  | .defaultExport true => ";\nexport default __exports.default;"
  | .defaultExport false => ";\nexport default __exports;"
  | .reexport names => "export \x7b " ++ String.intercalate (", ") names ++ " \x7d;"
  | .synthExport names =>
      String.intercalate (" ")
        (names.map (fun ex => "export var " ++ ex ++ " = __exports." ++ ex ++ ";"))
  | .esModuleMarker => ";\nvar __esModule = true; export \x7b __esModule \x7d;"

/-- Models exportNames (src/unnamed/part_000, lines 42-64): partition the
requested names into those already bound at the unit's top level — re-exported
directly, since redeclaring them would conflict — and the rest, each given a
fresh top-level binding read off the synthetic export object and exported. -/
def exportNames (ast : Node) (names : List String) : List Chunk :=
  let topLevelNames := names.filter (fun name => findTopLevelDeclaration ast name)
  let otherNames := names.filter (fun name => !(topLevelNames.contains name))
  (if topLevelNames.length > 0 then [Chunk.reexport topLevelNames] else []) ++
  (if otherNames.length > 0 then [Chunk.synthExport otherNames] else [])

/-- The appended footer of lines 246-270, emitted when hasExports is set,
in exact call order: for an isESModule unit, the default export of
__exports.default (unless the unit already has an ES default export), then
the exports.NAME candidates filtered through filterExported, then the
__esModule marker export; otherwise the default export of __exports.  In
both cases the caller-supplied namedExports list for this unit, when
configured, is appended LAST — after the marker.  The flags and the
candidate list are the accumulator state of the walk (lines 73-78). -/
def emitFooter (ast : Node) (isESModule hasESDefaultExport : Bool)
    (exported : List String) (namedExports : Option (List String)) : List Chunk :=
  (if isESModule then
    (if !hasESDefaultExport then [Chunk.defaultExport true] else []) ++
      exportNames ast (filterExported exported) ++
      [Chunk.esModuleMarker]
  else
    (if !hasESDefaultExport then [Chunk.defaultExport false] else [])) ++
  (match namedExports with
   | some names => exportNames ast names
   | none => [])

def chunkNames : Chunk → List String
  | .reexport names => names
  | .synthExport names => names
  | _ => []

def reexportChunkNames : Chunk → List String
  | .reexport names => names
  | _ => []

def synthChunkNames : Chunk → List String
  | .synthExport names => names
  | _ => []

/-- All names exported by a footer (in either form). -/
def footerExportNames (items : List Chunk) : List String :=
  (items.map chunkNames).flatten

/-- The names a footer re-exports from existing top-level bindings. -/
def reexportNamesOf (items : List Chunk) : List String :=
  (items.map reexportChunkNames).flatten

/-- The names a footer exports through fresh synthesized bindings. -/
def synthNamesOf (items : List Chunk) : List String :=
  (items.map synthChunkNames).flatten

/-- One queued text-patcher operation: MagicString.prepend or
MagicString.append with a chunk of generated text. -/
inductive EditOp where
  | prepend (c : Chunk)
  | append (c : Chunk)
deriving DecidableEq, Repr

/-- The text patcher's accumulated state: magic-string keeps an intro placed
before the patched body and an outro placed after it. -/
structure MagicString where
  intro : List Chunk
  body : String
  outro : List Chunk
deriving Repr

/-- MagicString.prepend: this.intro = content + this.intro — the new content
lands BEFORE everything prepended earlier. -/
def MagicString.prependChunk (m : MagicString) (c : Chunk) : MagicString :=
  { m with intro := c :: m.intro }

/-- MagicString.append: this.outro = this.outro + content — appends accumulate
in call order. -/
def MagicString.appendChunk (m : MagicString) (c : Chunk) : MagicString :=
  { m with outro := m.outro ++ [c] }

def applyEdits (m : MagicString) : List EditOp → MagicString
  | [] => m
  | .prepend c :: rest => applyEdits (m.prependChunk c) rest
  | .append c :: rest => applyEdits (m.appendChunk c) rest

def prependsOf (ops : List EditOp) : List Chunk :=
  ops.filterMap fun op =>
    match op with
    | .prepend c => some c
    | .append _ => none

def appendsOf (ops : List EditOp) : List Chunk :=
  ops.filterMap fun op =>
    match op with
    | .prepend _ => none
    | .append c => some c

def renderChunks : List Chunk → String
  | [] => ""
  | c :: rest => chunkText c ++ renderChunks rest

/-- MagicString.toString: intro, then the patched body, then outro. -/
def MagicString.render (m : MagicString) : String :=
  renderChunks m.intro ++ m.body ++ renderChunks m.outro

/-- The sequence of prepend/append calls one transform invocation issues
(src/unnamed/part_000, lines 68-270), in call order: during the walk one
namespace-import prepend per included require call; after the walk the
interop helper prepend when at least one import was emitted (hasImports is
set exactly when a require edit fired, line 157); then, when hasExports is
set, the export-object declaration prepend followed by the footer appends.
The boolean flags and the exports.NAME candidate list are the walk's
accumulator state; the overwrite edits of the rewriter are carried separately
by the RequireEdit records. -/
def transform (unit : Node) (hasExports isESModule hasESDefaultExport : Bool)
    (exported : List String) (namedExports : Option (List String)) : List EditOp :=
  let requireEdits := transformRequires (collectCallSites [] unit) 0
  let hasImports := !requireEdits.isEmpty
  (requireEdits.map fun r => EditOp.prepend (Chunk.importDecl r.aliasIndex r.specifier)) ++
  (if hasImports then [EditOp.prepend Chunk.interopHelper] else []) ++
  (if hasExports then
    EditOp.prepend Chunk.exportsDecl ::
      (emitFooter unit isESModule hasESDefaultExport exported namedExports).map EditOp.append
  else [])

def isInteropPrepend : EditOp → Bool
  | .prepend .interopHelper => true
  | _ => false

/-- How often the interop helper is emitted in a transform's edit sequence. -/
def countInteropHelpers (ops : List EditOp) : Nat :=
  ops.countP isInteropPrepend

/-- The require call of the nested-conditional unit
if (1 == 1) \x7b if (1 == 2) \x7b require(./a.js) \x7d \x7d. -/
def demoRequireA : Node := .call 40 58 (.ident 40 47 "require") [.lit 48 57 (.str ("./a.js"))]

def demoInnerBlockA : Node := .block 32 60 [.exprStmt 40 58 demoRequireA]

/-- The inner conditional: if (1 == 2), statically false. -/
def demoInnerIf : Node :=
  .ifStmt 20 60 (.binary 24 30 "==" (.lit 24 25 (.num 1)) (.lit 29 30 (.num 2)))
    demoInnerBlockA none

def demoOuterBlockA : Node := .block 12 62 [demoInnerIf]

/-- The outer conditional: if (1 == 1), statically true. -/
def demoOuterIf : Node :=
  .ifStmt 0 62 (.binary 4 10 "==" (.lit 4 5 (.num 1)) (.lit 9 10 (.num 1)))
    demoOuterBlockA none

def demoProgramA : Node := .program [demoOuterIf]

/-- The ancestor stack in force when the walk enters demoRequireA. -/
def demoAncestorsA : List Node :=
  [demoProgramA, demoOuterIf, demoOuterBlockA, demoInnerIf, demoInnerBlockA,
    .exprStmt 40 58 demoRequireA]

/-- The require call of the unit
if (1 == 2) \x7b if (f()) \x7b require(./b.js) \x7d \x7d. -/
def demoRequireB : Node := .call 45 63 (.ident 45 52 "require") [.lit 53 62 (.str ("./b.js"))]

def demoInnerBlockB : Node := .block 33 65 [.exprStmt 45 63 demoRequireB]

/-- The inner conditional whose test is a call — not a binary comparison. -/
def demoNonBinIf : Node :=
  .ifStmt 24 65 (.call 28 31 (.ident 28 29 "f") []) demoInnerBlockB none

def demoOuterBlockB : Node := .block 12 67 [demoNonBinIf]

/-- The outer conditional: if (1 == 2), statically false. -/
def demoFalseIf : Node :=
  .ifStmt 0 67 (.binary 4 10 "==" (.lit 4 5 (.num 1)) (.lit 9 10 (.num 2)))
    demoOuterBlockB none

def demoProgramB : Node := .program [demoFalseIf]

/-- The ancestor stack in force when the walk enters demoRequireB. -/
def demoAncestorsB : List Node :=
  [demoProgramB, demoFalseIf, demoOuterBlockB, demoNonBinIf, demoInnerBlockB,
    .exprStmt 45 63 demoRequireB]

/-- The ancestor stack of demoRequireB when the unanalyzable conditional is
the only enclosing one. -/
def demoAncestorsC : List Node :=
  [.program [demoNonBinIf], demoNonBinIf, demoInnerBlockB, .exprStmt 45 63 demoRequireB]

/-- A BinaryExpression test containing a call: f() == 1. -/
def demoBadTest : Node :=
  .binary 4 14 "==" (.call 4 9 (.ident 4 5 "f") []) (.lit 13 14 (.num 1))

/-- if (f() == 1) ... — passes the line-115 guard, yet its test runs f. -/
def demoBadIf : Node := .ifStmt 0 40 demoBadTest (.block 16 40 []) none

/-- require(42): one argument, a Literal, but not a string literal. -/
def demoNumRequire : Node := .call 0 11 (.ident 0 7 "require") [.lit 8 10 (.num 42)]

/-- The if/else unit if (1 == 2) \x7b require(./d1.js) \x7d else
\x7b require(./d2.js) \x7d. -/
def demoRequireD1 : Node := .call 14 33 (.ident 14 21 "require") [.lit 22 32 (.str ("./d1.js"))]

def demoRequireD2 : Node := .call 43 62 (.ident 43 50 "require") [.lit 51 61 (.str ("./d2.js"))]

def demoConsD : Node := .block 12 35 [.exprStmt 14 33 demoRequireD1]

def demoAltD : Node := .block 41 64 [.exprStmt 43 62 demoRequireD2]

def demoTestD : Node := .binary 4 10 "==" (.lit 4 5 (.num 1)) (.lit 9 10 (.num 2))

def demoIfElse : Node := .ifStmt 0 64 demoTestD demoConsD (some demoAltD)

def demoProgramD : Node := .program [demoIfElse]

def demoAncestorsD1 : List Node :=
  [demoProgramD, demoIfElse, demoConsD, .exprStmt 14 33 demoRequireD1]

def demoAncestorsD2 : List Node :=
  [demoProgramD, demoIfElse, demoAltD, .exprStmt 43 62 demoRequireD2]

/-- A unit holding a single unconditional require call. -/
def demoRequireE : Node := .call 0 18 (.ident 0 7 "require") [.lit 8 17 (.str ("./c.js"))]

def demoUnitE : Node := .program [.exprStmt 0 18 demoRequireE]

/-- A namespace whose default property is present but falsy: the shape of
issue 1's module.exports = false. -/
def demoFalseDefaultNS : Namespace := [(defaultKey, .bool false)]

/-- Calls in a test propagate to the eval fragment unchanged, and a test built
only of literals and binary comparisons contains none. -/
theorem containsCall_eq_false_of_pureComparison :
    ∀ (t : Node), pureComparison t = true → containsCall t = false
  | .lit _ _ _, _ => rfl
  | .binary _ _ _ l r, h => by
      simp only [pureComparison, Bool.and_eq_true] at h
      simp [containsCall, containsCall_eq_false_of_pureComparison l h.1,
        containsCall_eq_false_of_pureComparison r h.2]
termination_by structural t => t

/-- A single binary comparison of numeric literals always evaluates to a
boolean under the restricted semantics. -/
theorem evalTest_total_of_simpleNumComparison (test : Node)
    (h : simpleNumComparison test = true) : ∃ v : Bool, evalTest test = some (.bool v) := by
  unfold simpleNumComparison at h
  split at h
  next =>
    simp only [Bool.or_eq_true, beq_iff_eq] at h
    rcases h with ((((((h | h) | h) | h) | h) | h) | h) | h <;> subst h <;> exact ⟨_, rfl⟩
  next => exact absurd h (by simp)

/-- C1 counterexample: in the nested unit
if (1 == 1) \x7b if (1 == 2) \x7b require(./a.js) \x7d \x7d
both conditionals qualify; the nearest (innermost) qualifying conditional is
the statically false inner one, and deciding by it would exclude the require
call — yet the transform consults the outermost conditional and includes it.
So the nearest enclosing qualifying conditional is NOT the one consulted. -/
theorem claim1_counterexample :
    demoAncestorsA.reverse.find? isIfWithBinaryTest = some demoInnerIf ∧
    decideByConditional demoInnerIf demoRequireA = some false ∧
    demoAncestorsA.find? isIfWithBinaryTest = some demoOuterIf ∧
    shouldIncludeRequire demoAncestorsA demoRequireA = some true ∧
    shouldIncludeRequireNearest demoAncestorsA demoRequireA = some false :=
  ⟨rfl, by decide, rfl, by decide, by decide⟩

/-- C1 amended: the OUTERMOST enclosing IfStatement with a BinaryExpression
test is the only conditional consulted — ancestors further in, qualifying or
not, never influence the decision. -/
theorem claim1_amended_thm (pre rest : List Node) (q node : Node)
    (hpre : ∀ a ∈ pre, isIfWithBinaryTest a = false)
    (hq : isIfWithBinaryTest q = true) :
    shouldIncludeRequire (pre ++ q :: rest) node = decideByConditional q node := by
  have h1 : pre.find? isIfWithBinaryTest = none := by
    rw [List.find?_eq_none]
    intro x hx
    simp [hpre x hx]
  have h2 : (q :: rest).find? isIfWithBinaryTest = some q := List.find?_cons_of_pos _ hq
  simp [shouldIncludeRequire, List.find?_append, h1, h2]

theorem claim1_amended_witness :
    shouldIncludeRequire demoAncestorsA demoRequireA =
      decideByConditional demoOuterIf demoRequireA :=
  claim1_amended_thm [demoProgramA]
    [demoOuterBlockA, demoInnerIf, demoInnerBlockA, .exprStmt 40 58 demoRequireA]
    demoOuterIf demoRequireA
    (by
      intro a ha
      rw [List.mem_singleton] at ha
      subst ha
      rfl)
    (by decide)

/-- C2 counterexample: the if-statement if (f() == 1) passes the line-115
guard (its test is a BinaryExpression), so branch evaluation runs on it; but
the fragment handed to eval keeps the test verbatim, so it contains the call
f() — arbitrary program logic — and the test is not a literal/binary
comparison that the restricted, always-terminating semantics can decide. -/
theorem claim2_counterexample :
    isIfWithBinaryTest demoBadIf = true ∧
    containsCall (branchEvalFragment demoBadIf) = true ∧
    pureComparison demoBadTest = false ∧
    evalTest demoBadTest = none := by decide

/-- C2 amended: branch evaluation substitutes marker assignments for the two
branches but embeds the original test verbatim; the evaluated fragment is
free of calls only when the test itself is built of literals and binary
comparisons, and for a test that is a single binary comparison of numeric
literals the evaluation terminates with a definite branch 0 or 1. -/
theorem claim2_amended_thm :
    (∀ (s e : Nat) (test c : Node) (a : Option Node), pureComparison test = true →
      containsCall (branchEvalFragment (.ifStmt s e test c a)) = false) ∧
    (∀ (test : Node), simpleNumComparison test = true →
      ∃ b, b < 2 ∧ runBranchEval test = some b) := by
  constructor
  · intro s e test c a h
    have hc := containsCall_eq_false_of_pureComparison test h
    simp [branchEvalFragment, containsCall, containsCallList, containsCallOpt,
      containsCallDecls, markerAssign, hc]
  · intro test h
    obtain ⟨v, hv⟩ := evalTest_total_of_simpleNumComparison test h
    refine ⟨if v then 0 else 1, by cases v <;> simp, ?_⟩
    simp [runBranchEval, hv, truthy]

theorem claim2_amended_witness :
    containsCall (branchEvalFragment (.ifStmt 0 64 demoTestD demoConsD (some demoAltD))) = false ∧
    ∃ b, b < 2 ∧ runBranchEval demoTestD = some b :=
  ⟨claim2_amended_thm.1 0 64 demoTestD demoConsD (some demoAltD) (by decide),
   claim2_amended_thm.2 demoTestD (by decide)⟩

/-- C3 counterexample: require(42) has exactly one argument and it is a
Literal, so the rewriter fires and queues an import for it — although 42 is
not a string literal, contradicting the claim that only string-literal
requires are rewritten. -/
theorem claim3_counterexample :
    specRequireTrigger demoNumRequire = false ∧
    transformRequires [([], demoNumRequire)] 0 = [⟨0, 0, 11, .num 42⟩] := by decide

/-- C3 amended: a call is rewritten only when its callee is the bare
identifier require and it has exactly one argument that is a literal of any
kind (and the inclusion decision allows it); a call failing the guard —
non-literal argument, more than one argument, or another callee — is passed
through with no import added and leaves the remaining sites untouched. -/
theorem claim3_amended_thm (ancestors : List Node) (node : Node) (rest : List Site)
    (importIndex : Nat) :
    (requireGuard node = false →
      transformRequires ((ancestors, node) :: rest) importIndex =
        transformRequires rest importIndex) ∧
    (transformRequires ((ancestors, node) :: rest) importIndex ≠
        transformRequires rest importIndex →
      requireGuard node = true ∧ shouldIncludeRequire ancestors node = some true) := by
  constructor
  · intro h
    simp [transformRequires, h]
  · intro hne
    by_cases hg : requireGuard node = true
    · refine ⟨hg, ?_⟩
      rcases hdec : shouldIncludeRequire ancestors node with _ | b
      · exact absurd (by simp [transformRequires, hg, hdec]) hne
      · cases b with
        | false => exact absurd (by simp [transformRequires, hg, hdec]) hne
        | true => rfl
    · exact absurd (by simp [transformRequires, hg]) hne

theorem claim3_amended_witness :
    transformRequires [([], Node.ident 0 3 ("dep"))] 0 = transformRequires [] 0 :=
  (claim3_amended_thm [] (.ident 0 3 ("dep")) [] 0).1 (by decide)

/-- C4: with the consulted conditional statically evaluated to a branch, the
require call is rewritten — aliased under the next import index, its source
range replaced, its specifier queued as a namespace import — exactly when it
lies lexically within the branch that fired; otherwise the site is skipped
entirely: no edit is produced and the remaining sites are processed as if it
were absent, leaving its span and alias numbering untouched. -/
theorem claim4_thm (ancestors : List Node) (node : Node) (rest : List Site)
    (importIndex : Nat) (s e : Nat) (test consequent : Node) (alternate : Option Node)
    (branch : Nat)
    (hfind : ancestors.find? isIfWithBinaryTest = some (.ifStmt s e test consequent alternate))
    (heval : runBranchEval test = some branch) :
    shouldIncludeRequire ancestors node =
      some (branchContainsNode consequent alternate branch node) ∧
    (∀ importee, requireGuard node = true → requireSpecifier node = some importee →
      (branchContainsNode consequent alternate branch node = true →
        transformRequires ((ancestors, node) :: rest) importIndex =
          ⟨importIndex, node.start, node.stop, importee⟩ ::
            transformRequires rest (importIndex + 1)) ∧
      (branchContainsNode consequent alternate branch node = false →
        transformRequires ((ancestors, node) :: rest) importIndex =
          transformRequires rest importIndex)) := by
  have hdec : shouldIncludeRequire ancestors node =
      some (branchContainsNode consequent alternate branch node) := by
    simp [shouldIncludeRequire, hfind, decideByConditional, heval]
  refine ⟨hdec, ?_⟩
  intro importee hg hspec
  constructor
  · intro hb
    simp [transformRequires, hg, hdec, hb, hspec]
  · intro hb
    simp [transformRequires, hg, hdec, hb, hspec]

theorem claim4_witness :
    shouldIncludeRequire demoAncestorsD1 demoRequireD1 = some false ∧
    transformRequires [(demoAncestorsD1, demoRequireD1)] 0 = [] := by
  have h := claim4_thm demoAncestorsD1 demoRequireD1 [] 0 0 64 demoTestD demoConsD
    (some demoAltD) 1 rfl (by decide)
  exact ⟨h.1.trans (by decide),
    ((h.2 (.str ("./d1.js")) (by decide) rfl).2 (by decide)).trans rfl⟩

/-- C5 counterexample: in
if (1 == 2) \x7b if (f()) \x7b require(./b.js) \x7d \x7d
the nearest enclosing conditional is the inner if whose test is a call — not
a simple binary comparison — so by the claim the require call must always be
included; but the scan consults the outer, statically false binary
conditional and drops the call. -/
theorem claim5_counterexample :
    demoAncestorsB.reverse.find? isIfStmt = some demoNonBinIf ∧
    isIfWithBinaryTest demoNonBinIf = false ∧
    shouldIncludeRequire demoAncestorsB demoRequireB = some false ∧
    transformRequires [(demoAncestorsB, demoRequireB)] 0 = [] :=
  ⟨rfl, by decide, by decide, by decide⟩

/-- C5 amended: when NO enclosing conditional of the require call has a
simple binary-comparison test — every enclosing conditional is of a form the
evaluator cannot classify — the call is always included: the decision is
affirmative and, when the callee/argument guard passes, the rewrite fires. -/
theorem claim5_amended_thm (ancestors : List Node) (node : Node) (rest : List Site)
    (importIndex : Nat) (importee : JSValue)
    (h : ∀ a ∈ ancestors, isIfWithBinaryTest a = false) :
    shouldIncludeRequire ancestors node = some true ∧
    (requireGuard node = true → requireSpecifier node = some importee →
      transformRequires ((ancestors, node) :: rest) importIndex =
        ⟨importIndex, node.start, node.stop, importee⟩ ::
          transformRequires rest (importIndex + 1)) := by
  have hfind : ancestors.find? isIfWithBinaryTest = none := by
    rw [List.find?_eq_none]
    intro x hx
    simp [h x hx]
  have hinc : shouldIncludeRequire ancestors node = some true := by
    simp [shouldIncludeRequire, hfind]
  refine ⟨hinc, ?_⟩
  intro hg hspec
  simp [transformRequires, hg, hinc, hspec]

theorem claim5_amended_witness :
    shouldIncludeRequire demoAncestorsC demoRequireB = some true ∧
    transformRequires [(demoAncestorsC, demoRequireB)] 0 =
      [⟨0, 45, 63, .str ("./b.js")⟩] := by
  have h := claim5_amended_thm demoAncestorsC demoRequireB [] 0 (.str ("./b.js"))
    (by
      intro a ha
      simp only [demoAncestorsC, List.mem_cons, List.not_mem_nil, or_false] at ha
      rcases ha with rfl | rfl | rfl | rfl <;> rfl)
  exact ⟨h.1, (h.2 (by decide) rfl).trans rfl⟩

theorem countInterop_import_prepends (l : List RequireEdit) :
    List.countP
      (isInteropPrepend ∘ fun r => EditOp.prepend (Chunk.importDecl r.aliasIndex r.specifier))
      l = 0 := by
  induction l with
  | nil => rfl
  | cons x xs ih => simp [List.countP_cons, ih, Function.comp, isInteropPrepend]

theorem countInterop_appendOps (l : List Chunk) :
    List.countP (isInteropPrepend ∘ EditOp.append) l = 0 := by
  induction l with
  | nil => rfl
  | cons x xs ih => simp [List.countP_cons, ih, Function.comp, isInteropPrepend]

/-- C6: the interop helper is prepended exactly once per unit when at least
one require edit fired (hasImports), and not at all otherwise; and the
emitted function returns the namespace unchanged when its interop marker is
truthy, otherwise the value of its default property whenever that read is not
undefined — false included — and otherwise the namespace unchanged. -/
theorem claim6_thm :
    (∀ (unit : Node) (hasExports isESModule hasESDefaultExport : Bool)
        (exported : List String) (namedExports : Option (List String)),
      countInteropHelpers
          (transform unit hasExports isESModule hasESDefaultExport exported namedExports) =
        if (transformRequires (collectCallSites [] unit) 0).isEmpty then 0 else 1) ∧
    (∀ ex : Namespace, truthy (getProp ex esModuleKey) = true →
      interopImport ex = .ns ex) ∧
    (∀ ex : Namespace, truthy (getProp ex esModuleKey) = false →
      getProp ex defaultKey ≠ .undefined →
      interopImport ex = .val (getProp ex defaultKey)) ∧
    (∀ ex : Namespace, truthy (getProp ex esModuleKey) = false →
      getProp ex defaultKey = .undefined →
      interopImport ex = .ns ex) := by
  refine ⟨?_, ?_, ?_, ?_⟩
  · intro unit he esm hd ex cn
    by_cases hre : (transformRequires (collectCallSites [] unit) 0).isEmpty <;>
      cases he <;>
        simp [transform, countInteropHelpers, hre, List.countP_append, List.countP_cons,
          countInterop_import_prepends, countInterop_appendOps, isInteropPrepend]
  · intro ex h
    simp [interopImport, h]
  · intro ex h hd
    simp [interopImport, h, hd]
  · intro ex h hd
    simp [interopImport, h, hd]

theorem claim6_witness :
    countInteropHelpers (transform demoUnitE false false false [] none) = 1 ∧
    interopImport demoFalseDefaultNS = .val (.bool false) := by
  constructor
  · rw [claim6_thm.1 demoUnitE false false false [] none]
    decide
  · exact claim6_thm.2.2.1 demoFalseDefaultNS (by decide) (by decide)

theorem applyEdits_spec (ops : List EditOp) (m : MagicString) :
    (applyEdits m ops).intro = (prependsOf ops).reverse ++ m.intro ∧
    (applyEdits m ops).outro = m.outro ++ appendsOf ops ∧
    (applyEdits m ops).body = m.body := by
  induction ops generalizing m with
  | nil => simp [applyEdits, prependsOf, appendsOf]
  | cons op rest ih =>
    cases op with
    | prepend c =>
      obtain ⟨h1, h2, h3⟩ := ih (m.prependChunk c)
      refine ⟨?_, ?_, ?_⟩
      · show (applyEdits (m.prependChunk c) rest).intro = _
        rw [h1]
        simp [MagicString.prependChunk, prependsOf]
      · show (applyEdits (m.prependChunk c) rest).outro = _
        rw [h2]
        simp [MagicString.prependChunk, appendsOf]
      · show (applyEdits (m.prependChunk c) rest).body = _
        rw [h3]
        rfl
    | append c =>
      obtain ⟨h1, h2, h3⟩ := ih (m.appendChunk c)
      refine ⟨?_, ?_, ?_⟩
      · show (applyEdits (m.appendChunk c) rest).intro = _
        rw [h1]
        simp [MagicString.appendChunk, prependsOf]
      · show (applyEdits (m.appendChunk c) rest).outro = _
        rw [h2]
        simp [MagicString.appendChunk, appendsOf]
      · show (applyEdits (m.appendChunk c) rest).body = _
        rw [h3]
        rfl

theorem prependsOf_appendOps (l : List Chunk) : prependsOf (l.map EditOp.append) = [] := by
  induction l with
  | nil => rfl
  | cons x xs ih =>
    simp only [List.map_cons, prependsOf, List.filterMap_cons]
    exact ih

/-- With exports present, the export-object declaration is the last prepend
the transform queues. -/
theorem prependsOf_transform_exports (unit : Node) (isESModule hasESDefaultExport : Bool)
    (exported : List String) (namedExports : Option (List String)) :
    ∃ front, prependsOf
        (transform unit true isESModule hasESDefaultExport exported namedExports) =
      front ++ [Chunk.exportsDecl] := by
  refine ⟨prependsOf
      (((transformRequires (collectCallSites [] unit) 0).map fun r =>
          EditOp.prepend (Chunk.importDecl r.aliasIndex r.specifier)) ++
        (if !(transformRequires (collectCallSites [] unit) 0).isEmpty
          then [EditOp.prepend Chunk.interopHelper] else [])), ?_⟩
  simp only [transform, prependsOf, List.filterMap_append, List.append_assoc]
  simp [prependsOf_appendOps (emitFooter unit isESModule hasESDefaultExport exported
    namedExports), prependsOf]

/-- C7: rendering order of queued edits is deterministic — every
insert-at-start edit lands before all earlier-queued start content
(last-called-first-rendered) while insert-at-end edits accumulate in call
order — and consequently, for any unit transformed with exports, the rendered
output literally begins with the export-object declaration, ahead of the
interop helper and all import statements. -/
theorem claim7_thm :
    (∀ (m : MagicString) (ops : List EditOp),
      (applyEdits m ops).intro = (prependsOf ops).reverse ++ m.intro ∧
      (applyEdits m ops).outro = m.outro ++ appendsOf ops ∧
      (applyEdits m ops).body = m.body) ∧
    (∀ (code : String) (unit : Node) (isESModule hasESDefaultExport : Bool)
        (exported : List String) (namedExports : Option (List String)),
      ∃ rest, (applyEdits ⟨[], code, []⟩
          (transform unit true isESModule hasESDefaultExport exported namedExports)).render =
        chunkText Chunk.exportsDecl ++ rest) := by
  constructor
  · intro m ops
    exact applyEdits_spec ops m
  · intro code unit esm hd ex cn
    obtain ⟨front, hfront⟩ := prependsOf_transform_exports unit esm hd ex cn
    obtain ⟨hi, ho, hb⟩ := applyEdits_spec (transform unit true esm hd ex cn) ⟨[], code, []⟩
    refine ⟨renderChunks front.reverse ++ code ++
      renderChunks (appendsOf (transform unit true esm hd ex cn)), ?_⟩
    rw [MagicString.render, hi, hfront, hb, ho]
    simp [renderChunks, String.append_assoc]

/-- The footer of an isESModule unit, regrouped: default export (only without
an existing ES default export), the filtered exports.NAME candidates, the
interop-marker export, and — last — the caller-supplied named exports. -/
theorem emitFooter_esm (ast : Node) (hasESDefaultExport : Bool) (exported : List String)
    (namedExports : Option (List String)) :
    emitFooter ast true hasESDefaultExport exported namedExports =
      (if hasESDefaultExport then [] else [Chunk.defaultExport true]) ++
        exportNames ast (filterExported exported) ++ [Chunk.esModuleMarker] ++
        (match namedExports with
         | some names => exportNames ast names
         | none => []) := by
  cases hasESDefaultExport <;> simp [emitFooter]

/-- The footer of a non-isESModule unit: default export (only without an
existing ES default export), then the caller-supplied named exports. -/
theorem emitFooter_cjs (ast : Node) (hasESDefaultExport : Bool) (exported : List String)
    (namedExports : Option (List String)) :
    emitFooter ast false hasESDefaultExport exported namedExports =
      (if hasESDefaultExport then [] else [Chunk.defaultExport false]) ++
        (match namedExports with
         | some names => exportNames ast names
         | none => []) := by
  cases hasESDefaultExport <;> simp [emitFooter]

/-- The named-export synthesizer never emits the interop-marker export. -/
theorem esModuleMarker_not_mem_exportNames (ast : Node) (names : List String) :
    Chunk.esModuleMarker ∉ exportNames ast names := by
  intro h
  simp only [exportNames] at h
  rcases List.mem_append.mp h with h | h
  · split at h <;> simp at h
  · split at h <;> simp at h

/-- C8 counterexample: an isESModule unit with exports.NAME candidate
message and caller-supplied named-export list [extra] emits the interop
marker BEFORE the caller-supplied names, so the marker export is not the last
footer item as the claim requires. -/
theorem claim8_counterexample :
    Chunk.esModuleMarker ∈ emitFooter (.program []) true false ["message"] (some ["extra"]) ∧
    (emitFooter (.program []) true false ["message"] (some ["extra"])).getLast? ≠
      some Chunk.esModuleMarker := by decide

/-- C8 amended: for isESModule units the footer order is default export
(only when hasESDefaultExport is not set), then the exports.NAME candidates,
then the interop-marker export — emitted exactly once — and LAST the
caller-supplied named exports; for other units it is default export followed
by the caller-supplied named exports, with no marker. -/
theorem claim8_amended_thm :
    (∀ (ast : Node) (hasESDefaultExport : Bool) (exported : List String)
        (namedExports : Option (List String)),
      emitFooter ast true hasESDefaultExport exported namedExports =
        (if hasESDefaultExport then [] else [Chunk.defaultExport true]) ++
          exportNames ast (filterExported exported) ++ [Chunk.esModuleMarker] ++
          (match namedExports with
           | some names => exportNames ast names
           | none => [])) ∧
    (∀ (ast : Node) (hasESDefaultExport : Bool) (exported : List String)
        (namedExports : Option (List String)),
      emitFooter ast false hasESDefaultExport exported namedExports =
        (if hasESDefaultExport then [] else [Chunk.defaultExport false]) ++
          (match namedExports with
           | some names => exportNames ast names
           | none => [])) ∧
    (∀ (ast : Node) (names : List String), Chunk.esModuleMarker ∉ exportNames ast names) ∧
    (∀ (ast : Node) (hasESDefaultExport : Bool) (exported : List String)
        (namedExports : Option (List String)),
      (emitFooter ast true hasESDefaultExport exported namedExports).count
        Chunk.esModuleMarker = 1) := by
  refine ⟨emitFooter_esm, emitFooter_cjs, esModuleMarker_not_mem_exportNames, ?_⟩
  intro ast hd ex cn
  rw [emitFooter_esm]
  rcases cn with _ | names
  · cases hd <;>
      simp [List.count_append,
        List.count_eq_zero_of_not_mem
          (esModuleMarker_not_mem_exportNames ast (filterExported ex))]
  · cases hd <;>
      simp [List.count_append,
        List.count_eq_zero_of_not_mem
          (esModuleMarker_not_mem_exportNames ast (filterExported ex)),
        List.count_eq_zero_of_not_mem (esModuleMarker_not_mem_exportNames ast names)]

theorem filterExportedFrom_sublist (a : List String) :
    ∀ (l : List String) (i : Nat), List.Sublist (filterExportedFrom a l i) l
  | [], _ => List.Sublist.refl []
  | e :: rest, i => by
      simp only [filterExportedFrom]
      split
      · exact (filterExportedFrom_sublist a rest (i + 1)).cons₂ e
      · exact (filterExportedFrom_sublist a rest (i + 1)).cons e
termination_by structural l _i => l

theorem ne_default_of_mem_filterExportedFrom (a : List String) :
    ∀ (l : List String) (i : Nat) (x : String),
      x ∈ filterExportedFrom a l i → x ≠ defaultKey
  | [], _, x, h => by simp [filterExportedFrom] at h
  | e :: rest, i, x, h => by
      simp only [filterExportedFrom] at h
      rcases List.mem_append.mp h with h | h
      · split at h
        · next hc =>
            rw [List.mem_singleton] at h
            subst h
            exact hc.1
        · simp at h
      · exact ne_default_of_mem_filterExportedFrom a rest (i + 1) x h
termination_by structural l _i _x _h => l

theorem indexOf_append_cons_self (x : String) :
    ∀ (pre : List String), x ∉ pre → ∀ (rest : List String),
      (pre ++ x :: rest).indexOf x = pre.length
  | [], _, rest => List.indexOf_cons_self x rest
  | p :: ps, hx, rest => by
      have hxp : p ≠ x := by
        intro h
        exact hx (h ▸ List.mem_cons_self p ps)
      have ih := indexOf_append_cons_self x ps (fun h => hx (List.mem_cons_of_mem p h)) rest
      simp only [List.cons_append, List.indexOf_cons_ne _ hxp, ih, List.length_cons]
termination_by structural pre _hx _rest => pre

theorem mem_filterExportedFrom (x : String) (hdx : x ≠ defaultKey) :
    ∀ (l : List String) (pre : List String), x ∉ pre → x ∈ l →
      x ∈ filterExportedFrom (pre ++ l) l pre.length
  | [], _, _, hm => absurd hm (List.not_mem_nil x)
  | e :: rest, pre, hnp, hm => by
      by_cases hxe : x = e
      · subst hxe
        simp only [filterExportedFrom]
        have hix : (pre ++ x :: rest).indexOf x = pre.length :=
          indexOf_append_cons_self x pre hnp rest
        simp [hix, hdx]
      · have hm2 : x ∈ rest := by
          rcases List.mem_cons.mp hm with h | h
          · exact absurd h hxe
          · exact h
        have hnp2 : x ∉ pre ++ [e] := by
          intro h
          rcases List.mem_append.mp h with h | h
          · exact hnp h
          · rw [List.mem_singleton] at h
            exact hxe h
        have ih := mem_filterExportedFrom x hdx rest (pre ++ [e]) hnp2 hm2
        simp only [List.append_assoc, List.singleton_append, List.length_append,
          List.length_singleton] at ih
        simp only [filterExportedFrom]
        exact List.mem_append.mpr (Or.inr ih)
termination_by structural l _pre _hnp _hm => l

theorem indexOf_ge_of_mem_filterExportedFrom (a : List String) :
    ∀ (l : List String) (i : Nat) (x : String),
      x ∈ filterExportedFrom a l i → i ≤ a.indexOf x
  | [], _, x, h => by simp [filterExportedFrom] at h
  | e :: rest, i, x, h => by
      simp only [filterExportedFrom] at h
      rcases List.mem_append.mp h with h | h
      · split at h
        · next hc =>
            rw [List.mem_singleton] at h
            subst h
            exact Nat.le_of_eq hc.2.symm
        · simp at h
      · have := indexOf_ge_of_mem_filterExportedFrom a rest (i + 1) x h
        omega
termination_by structural l _i _x _h => l

theorem nodup_filterExportedFrom (a : List String) :
    ∀ (l : List String) (i : Nat), (filterExportedFrom a l i).Nodup
  | [], _ => List.nodup_nil
  | e :: rest, i => by
      simp only [filterExportedFrom]
      split
      · next hc =>
          simp only [List.singleton_append, List.nodup_cons]
          refine ⟨fun hmem => ?_, nodup_filterExportedFrom a rest (i + 1)⟩
          have hge := indexOf_ge_of_mem_filterExportedFrom a rest (i + 1) e hmem
          rw [hc.2] at hge
          omega
      · simp only [List.nil_append]
        exact nodup_filterExportedFrom a rest (i + 1)
termination_by structural l _i => l

/-- Membership in the filtered candidate list: exactly the non-default names
that occur among the exports.NAME candidates. -/
theorem mem_filterExported (exported : List String) (x : String) :
    x ∈ filterExported exported ↔ x ∈ exported ∧ x ≠ defaultKey := by
  constructor
  · intro h
    exact ⟨(filterExportedFrom_sublist exported exported 0).subset h,
      ne_default_of_mem_filterExportedFrom exported exported 0 x h⟩
  · rintro ⟨hm, hd⟩
    exact mem_filterExportedFrom x hd exported [] (List.not_mem_nil x) hm

theorem flatten_map_emptiness (f : Chunk → List String) (mk : List String → Chunk)
    (l : List String) (hf : f (mk l) = l) :
    (List.map f (if l.length > 0 then [mk l] else [])).flatten = l := by
  by_cases h : l.length > 0
  · rw [if_pos h]
    simp [hf]
  · rw [if_neg h]
    have h0 : l = [] := by
      cases l
      · rfl
      · simp at h
    simp [h0]

theorem flatten_map_guard_nil (f : Chunk → List String) (c : Chunk)
    (hc : f c = []) (b : Prop) [Decidable b] :
    (List.map f (if b then [c] else [])).flatten = [] := by
  by_cases h : b <;> simp [h, hc]

/-- Regardless of the emptiness checks, the reexport chunk carries exactly
the requested names already bound at top level. -/
theorem reexportNamesOf_exportNames (ast : Node) (names : List String) :
    reexportNamesOf (exportNames ast names) =
      names.filter (fun n => findTopLevelDeclaration ast n) := by
  simp only [exportNames, reexportNamesOf, List.map_append, List.flatten_append]
  rw [flatten_map_emptiness reexportChunkNames Chunk.reexport _ rfl,
    flatten_map_guard_nil reexportChunkNames (Chunk.synthExport _) rfl _, List.append_nil]

/-- Regardless of the emptiness checks, the synthesized-binding chunk carries
exactly the requested names not bound at top level. -/
theorem synthNamesOf_exportNames (ast : Node) (names : List String) :
    synthNamesOf (exportNames ast names) =
      names.filter (fun n =>
        !((names.filter fun m => findTopLevelDeclaration ast m).contains n)) := by
  simp only [exportNames, synthNamesOf, List.map_append, List.flatten_append]
  rw [flatten_map_emptiness synthChunkNames Chunk.synthExport _ rfl,
    flatten_map_guard_nil synthChunkNames (Chunk.reexport _) rfl _, List.nil_append]

theorem footerExportNames_exportNames (ast : Node) (names : List String) :
    footerExportNames (exportNames ast names) =
      names.filter (fun n => findTopLevelDeclaration ast n) ++
      names.filter (fun n =>
        !((names.filter fun m => findTopLevelDeclaration ast m).contains n)) := by
  simp only [exportNames, footerExportNames, List.map_append, List.flatten_append]
  rw [flatten_map_emptiness chunkNames Chunk.reexport _ rfl,
    flatten_map_emptiness chunkNames Chunk.synthExport _ rfl]

theorem mem_reexport_exportNames (ast : Node) (names : List String) (x : String) :
    x ∈ reexportNamesOf (exportNames ast names) ↔
      x ∈ names ∧ findTopLevelDeclaration ast x = true := by
  rw [reexportNamesOf_exportNames]
  exact List.mem_filter

theorem mem_synth_exportNames (ast : Node) (names : List String) (x : String) :
    x ∈ synthNamesOf (exportNames ast names) ↔
      x ∈ names ∧ findTopLevelDeclaration ast x = false := by
  rw [synthNamesOf_exportNames]
  constructor
  · intro h
    have hm := (List.mem_filter.mp h).1
    have hc := (List.mem_filter.mp h).2
    refine ⟨hm, ?_⟩
    cases hp : findTopLevelDeclaration ast x
    · rfl
    · exfalso
      have hxT : x ∈ names.filter fun m => findTopLevelDeclaration ast m :=
        List.mem_filter.mpr ⟨hm, hp⟩
      have hct : (names.filter fun m => findTopLevelDeclaration ast m).contains x = true :=
        List.elem_iff.mpr hxT
      rw [hct] at hc
      simp at hc
  · rintro ⟨hm, hp⟩
    refine List.mem_filter.mpr ⟨hm, ?_⟩
    have hxT : x ∉ names.filter fun m => findTopLevelDeclaration ast m := by
      intro hx
      have h2 := (List.mem_filter.mp hx).2
      rw [hp] at h2
      exact Bool.false_ne_true h2
    have hcf : (names.filter fun m => findTopLevelDeclaration ast m).contains x = false := by
      cases hcc : (names.filter fun m => findTopLevelDeclaration ast m).contains x
      · rfl
      · exact absurd (List.elem_iff.mp hcc) hxT
    show (!((names.filter fun m => findTopLevelDeclaration ast m).contains x)) = true
    rw [hcf]
    rfl

theorem mem_footer_exportNames (ast : Node) (names : List String) (x : String) :
    x ∈ footerExportNames (exportNames ast names) ↔ x ∈ names := by
  rw [footerExportNames_exportNames, List.mem_append]
  constructor
  · rintro (h | h)
    · exact (List.mem_filter.mp h).1
    · exact (List.mem_filter.mp h).1
  · intro hm
    cases hp : findTopLevelDeclaration ast x
    · refine Or.inr (List.mem_filter.mpr ⟨hm, ?_⟩)
      have hxT : x ∉ names.filter fun m => findTopLevelDeclaration ast m := by
        intro hx
        have h2 := (List.mem_filter.mp hx).2
        rw [hp] at h2
        exact Bool.false_ne_true h2
      have hcf : (names.filter fun m => findTopLevelDeclaration ast m).contains x = false := by
        cases hcc : (names.filter fun m => findTopLevelDeclaration ast m).contains x
        · rfl
        · exact absurd (List.elem_iff.mp hcc) hxT
      show (!((names.filter fun m => findTopLevelDeclaration ast m).contains x)) = true
      rw [hcf]
      rfl
    · exact Or.inl (List.mem_filter.mpr ⟨hm, hp⟩)

theorem footerExportNames_append (a b : List Chunk) :
    footerExportNames (a ++ b) = footerExportNames a ++ footerExportNames b := by
  simp [footerExportNames]

theorem reexportNamesOf_append (a b : List Chunk) :
    reexportNamesOf (a ++ b) = reexportNamesOf a ++ reexportNamesOf b := by
  simp [reexportNamesOf]

theorem synthNamesOf_append (a b : List Chunk) :
    synthNamesOf (a ++ b) = synthNamesOf a ++ synthNamesOf b := by
  simp [synthNamesOf]

theorem footerExportNames_cons (c : Chunk) (rest : List Chunk) :
    footerExportNames (c :: rest) = chunkNames c ++ footerExportNames rest := by
  simp [footerExportNames]

theorem reexportNamesOf_cons (c : Chunk) (rest : List Chunk) :
    reexportNamesOf (c :: rest) = reexportChunkNames c ++ reexportNamesOf rest := by
  simp [reexportNamesOf]

theorem synthNamesOf_cons (c : Chunk) (rest : List Chunk) :
    synthNamesOf (c :: rest) = synthChunkNames c ++ synthNamesOf rest := by
  simp [synthNamesOf]

theorem footerExportNames_nil : footerExportNames [] = [] := rfl

theorem reexportNamesOf_nil : reexportNamesOf [] = [] := rfl

theorem synthNamesOf_nil : synthNamesOf [] = [] := rfl

theorem footerExportNames_marker : footerExportNames [Chunk.esModuleMarker] = [] := rfl

theorem reexportNamesOf_marker : reexportNamesOf [Chunk.esModuleMarker] = [] := rfl

theorem synthNamesOf_marker : synthNamesOf [Chunk.esModuleMarker] = [] := rfl

theorem footerExportNames_defaultExport (b : Bool) :
    footerExportNames [Chunk.defaultExport b] = [] := rfl

theorem reexportNamesOf_defaultExport (b : Bool) :
    reexportNamesOf [Chunk.defaultExport b] = [] := rfl

theorem synthNamesOf_defaultExport (b : Bool) :
    synthNamesOf [Chunk.defaultExport b] = [] := rfl

/-- C9: the set of names the footer exports is the union of the exports.NAME
candidates — present only when isESModule is set, with default excluded —
and the caller-supplied list; a requested name with a matching top-level
variable declarator, function declaration or class declaration of that exact
name appears as a direct re-export of the existing binding, one without such
a binding as a fresh synthesized binding read off the synthetic export
object; and the candidate list feeding the footer is de-duplicated keeping
first occurrences in insertion order (Nodup and a Sublist of the collected
candidates). -/
theorem claim9_thm (ast : Node) (isESModule hasESDefaultExport : Bool)
    (exported : List String) (namedExports : Option (List String)) (x : String) :
    (x ∈ footerExportNames
        (emitFooter ast isESModule hasESDefaultExport exported namedExports) ↔
      ((isESModule = true ∧ x ∈ exported ∧ x ≠ defaultKey) ∨ x ∈ namedExports.getD [])) ∧
    (x ∈ reexportNamesOf
        (emitFooter ast isESModule hasESDefaultExport exported namedExports) ↔
      (((isESModule = true ∧ x ∈ exported ∧ x ≠ defaultKey) ∨ x ∈ namedExports.getD []) ∧
        findTopLevelDeclaration ast x = true)) ∧
    (x ∈ synthNamesOf
        (emitFooter ast isESModule hasESDefaultExport exported namedExports) ↔
      (((isESModule = true ∧ x ∈ exported ∧ x ≠ defaultKey) ∨ x ∈ namedExports.getD []) ∧
        findTopLevelDeclaration ast x = false)) ∧
    (filterExported exported).Nodup ∧
    List.Sublist (filterExported exported) exported := by
  refine ⟨?_, ?_, ?_, nodup_filterExportedFrom exported exported 0,
    filterExportedFrom_sublist exported exported 0⟩ <;>
    cases isESModule <;> rcases namedExports with _ | names <;> cases hasESDefaultExport <;>
      simp [emitFooter_esm, emitFooter_cjs, footerExportNames_append, reexportNamesOf_append,
        synthNamesOf_append, footerExportNames_nil, reexportNamesOf_nil, synthNamesOf_nil,
        footerExportNames_marker, reexportNamesOf_marker, synthNamesOf_marker,
        footerExportNames_defaultExport, reexportNamesOf_defaultExport,
        synthNamesOf_defaultExport, footerExportNames_cons, reexportNamesOf_cons,
        synthNamesOf_cons, chunkNames, reexportChunkNames, synthChunkNames,
        mem_footer_exportNames, mem_reexport_exportNames,
        mem_synth_exportNames, mem_filterExported] <;>
      tauto

/-- C10 counterexample: on the namespace \x7b default: false \x7d (the shape
produced by module.exports = false, issue 1) the part_000 helper returns the
default value false while the index.js helper returns the whole namespace
object — the two emitted interop functions are not extensionally equal. -/
theorem claim10_counterexample :
    interopImport demoFalseDefaultNS = .val (.bool false) ∧
    interopImportIndex demoFalseDefaultNS = .ns demoFalseDefaultNS ∧
    interopImport demoFalseDefaultNS ≠ interopImportIndex demoFalseDefaultNS := by decide

/-- C10 amended: the two interop helpers agree exactly on the namespaces
whose interop marker reads falsy and whose default property reads either
undefined or a truthy value; a present-but-falsy default separates them. -/
theorem claim10_amended_thm (ex : Namespace)
    (hmarker : truthy (getProp ex esModuleKey) = false)
    (hdflt : getProp ex defaultKey = .undefined ∨ truthy (getProp ex defaultKey) = true) :
    interopImport ex = interopImportIndex ex := by
  rcases hdflt with h | h
  · simp [interopImport, interopImportIndex, hmarker, h, truthy]
  · have hne : getProp ex defaultKey ≠ .undefined := by
      intro hu
      rw [hu] at h
      simp [truthy] at h
    simp [interopImport, interopImportIndex, hmarker, h, hne]

theorem claim10_amended_witness :
    interopImport [(defaultKey, JSValue.num 5)] =
      interopImportIndex [(defaultKey, JSValue.num 5)] :=
  claim10_amended_thm [(defaultKey, JSValue.num 5)] (by decide) (Or.inr (by decide))

theorem claim7_witness :
    ∃ rest, (applyEdits ⟨[], ("") , []⟩ (transform demoUnitE true false false [] none)).render =
      chunkText Chunk.exportsDecl ++ rest :=
  claim7_thm.2 ("") demoUnitE false false [] none

theorem claim8_amended_witness :
    (emitFooter (.program []) true false ["message"] (some ["extra"])).count
      Chunk.esModuleMarker = 1 :=
  claim8_amended_thm.2.2.2 (.program []) false ["message"] (some ["extra"])

theorem claim9_witness :
    ("message") ∈ footerExportNames (emitFooter (.program []) true false ["message"] none) :=
  ((claim9_thm (.program []) true false ["message"] none ("message")).1).mpr
    (Or.inl ⟨rfl, by decide, by decide⟩)
